import Mathlib

/- Verification of the Prolific Automatic Studies background service worker
   (src/background.ts) against its specification.  The TypeScript source is
   shallowly embedded: chrome.storage.sync is a partial map from string keys
   to typed values, each handler is a pure function from storage to storage
   together with the list of chrome API calls it emits, and the
   offscreen-document guard is modelled both as a sequential big-step
   function and as a small-step machine over interleaved tasks. -/

/-- A value held in chrome.storage.sync: the program stores booleans,
numbers and strings. -/
inductive Val where
  | vB : Bool → Val
  | vI : Int → Val
  | vS : String → Val
deriving DecidableEq

/-- chrome.storage.sync, a partial map from keys to values. -/
def Storage : Type := String → Option Val

def emptyStorage : Storage := fun _ => none

/-- chrome.storage.sync.set for a single key. -/
def setStorage (st : Storage) (k : String) (v : Val) : Storage :=
  fun q => if q = k then some v else st q

/-- getValueFromStorage (background.ts lines 87-93): the stored value when
defined, the supplied default otherwise. -/
def getValueFromStorage (st : Storage) (k : String) (d : Val) : Val :=
  (st k).getD d

/-- Typed read of a boolean key, the TypeScript cast result[key] as T at a
boolean-typed key. -/
def getBoolFromStorage (st : Storage) (k : String) (d : Bool) : Bool :=
  match st k with
  | some (Val.vB b) => b
  | _ => d

/-- Typed read of a numeric key. -/
def getIntFromStorage (st : Storage) (k : String) (d : Int) : Int :=
  match st k with
  | some (Val.vI n) => n
  | _ => d

/-- Typed read of a string key. -/
def getStrFromStorage (st : Storage) (k : String) (d : String) : String :=
  match st k with
  | some (Val.vS s) => s
  | _ => d

/-- The regex character class of a digit: the ASCII digits 0 through 9. -/
def isDigitChar (c : Char) : Bool := decide ('0' ≤ c) && decide (c ≤ '9')

/-- parseInt on a nonempty digit run, base 10. -/
def digitsToNat (ds : List Char) : Nat :=
  ds.foldl (fun n c => 10 * n + (c.toNat - Char.toNat '0')) 0

/-- First match of the regex of an opening parenthesis, one or more digits,
then a closing parenthesis, scanning left to right: at each position an
opening parenthesis must be followed by a maximal nonempty digit run and
then a closing parenthesis, else the scan moves one character right. -/
def findParenNum : List Char → Option Nat
  | [] => none
  | c :: rest =>
      if c = '(' then
        if !(rest.takeWhile isDigitChar).isEmpty
            && ((rest.dropWhile isDigitChar).head? == some ')') then
          some (digitsToNat (rest.takeWhile isDigitChar))
        else findParenNum rest
      else findParenNum rest

/-- getNumberFromTitle (lines 95-98): the first parenthesized integer in
the title, 0 when there is none. -/
def getNumberFromTitle (title : String) : Nat :=
  (findParenNum title.data).getD 0

/-- The difference computed in handleTitleChange between the number parsed
from the new title and the number parsed from the baseline (lines 108-109
and 126). -/
def titleDelta (previousTitle newTitle : String) : Int :=
  (getNumberFromTitle newTitle : Int) - (getNumberFromTitle previousTitle : Int)

/-- Observable chrome API calls, recorded in program order. -/
inductive Effect where
  | notifCreate (iconUrl title message button0 button1 : String)
  | sendPlayMessage (audioFile : String) (volume : Rat)
  | setBadgeText (text : String)
  | setBadgeColor (color : String)
  | scheduleBadgeClear (ms : Nat)
  | createDoc (path : String)
deriving DecidableEq

/-- sendNotification (lines 141-149): a basic notification with the fixed
icon, title and message and the two buttons Open Prolific and Dismiss. -/
def sendNotificationCall : Effect :=
  Effect.notifCreate "imgs/logo.png" "Prolific Automatic Studies"
    "A new study has been posted on Prolific!" "Open Prolific" "Dismiss"

/-- updateBadge (lines 151-158): set the badge text to the decimal string
of the argument, set the fixed background color, and schedule an
independent clear of the badge text 20000 ms later. -/
def updateBadge (counter : Int) : List Effect :=
  [Effect.setBadgeText (toString counter), Effect.setBadgeColor "#9dec14",
   Effect.scheduleBadgeClear 20000]

/-- updateCounterAndBadge (lines 160-164): add count to the persisted
counter, then render the badge for count itself. -/
def updateCounterAndBadge (st : Storage) (count : Int) : Storage × List Effect :=
  (setStorage st "counter" (Val.vI (getIntFromStorage st "counter" 0 + count)),
   updateBadge count)

/-- The badge surface: its current text and the deadlines of all pending
setTimeout clears. -/
structure BadgeState where
  text : String
  timers : List Nat
deriving DecidableEq

/-- Semantics of one badge-related chrome call issued at absolute time t:
setTimeout registers a new clear deadline and cancels nothing. -/
def applyBadgeEffect (t : Nat) (bs : BadgeState) : Effect → BadgeState
  | Effect.setBadgeText s => { bs with text := s }
  | Effect.scheduleBadgeClear d => { bs with timers := bs.timers ++ [t + d] }
  | _ => bs

def applyBadgeEffects (t : Nat) (bs : BadgeState) (es : List Effect) : BadgeState :=
  es.foldl (applyBadgeEffect t) bs

/-- A pending timer with deadline d fires: blank the badge text. -/
def fireBadgeTimer (bs : BadgeState) (d : Nat) : BadgeState :=
  if d ∈ bs.timers then { text := "", timers := bs.timers.erase d } else bs

/-- Result of one handler run: the storage afterwards, the effects emitted,
and whether the handler ran to completion (false when an awaited step
rejected and the rejection propagated out of the handler). -/
structure HandlerResult where
  storage : Storage
  effects : List Effect
  completed : Bool

/-- playAudio (lines 166-170): await setupOffscreenDocument, then send the
play-sound message carrying the audio file and normalized volume to the
offscreen document.  The argument setupOk abstracts whether the awaited
setupOffscreenDocument call resolves; its own semantics is given by
setupOffscreenDocument and the guard machine below.  When setup rejects,
the play message is never sent and the rejection propagates. -/
def playAudio (setupOk : Bool) (audioFile : String) (volume : Rat) :
    Option (List Effect) :=
  if setupOk then some [Effect.sendPlayMessage audioFile volume] else none

/-- String.prototype.trim: drop leading and trailing whitespace. -/
def strTrim (s : String) : String :=
  ⟨((s.data.dropWhile Char.isWhitespace).reverse.dropWhile Char.isWhitespace).reverse⟩

/-- handleTitleChange (lines 107-128): persist the new title first, then,
when the trimmed title is not the empty-state label and the parsed number
increased, send the notification if showNotification reads true, play the
audio if audioActive reads true, and update counter and badge with the
difference. -/
def handleTitleChange (setupOk : Bool) (previousTitle newTitle : String)
    (st : Storage) : HandlerResult :=
  let previousNumber := getNumberFromTitle previousTitle
  let currentNumber := getNumberFromTitle newTitle
  let st1 := setStorage st "prolificTitle" (Val.vS newTitle)
  if (strTrim newTitle != "Prolific") && (previousNumber < currentNumber) then
    let es1 := if getBoolFromStorage st1 "showNotification" true then
      [sendNotificationCall] else []
    if getBoolFromStorage st1 "audioActive" true then
      match playAudio setupOk (getStrFromStorage st1 "audio" "alert1.mp3")
          ((getIntFromStorage st1 "volume" 100 : Rat) / 100) with
      | none => ⟨st1, es1, false⟩
      | some es2 =>
          let r := updateCounterAndBadge st1 (titleDelta previousTitle newTitle)
          ⟨r.1, es1 ++ es2 ++ r.2, true⟩
    else
      let r := updateCounterAndBadge st1 (titleDelta previousTitle newTitle)
      ⟨r.1, es1 ++ r.2, true⟩
  else ⟨st1, [], true⟩

/-- listStartsWith cs pat: pat is a prefix of cs. -/
def listStartsWith : List Char → List Char → Bool
  | _, [] => true
  | [], _ :: _ => false
  | a :: as, b :: bs => (a == b) && listStartsWith as bs

/-- listIncludes cs pat: pat occurs as a contiguous run inside cs. -/
def listIncludes : List Char → List Char → Bool
  | [], pat => listStartsWith [] pat
  | s@(_ :: cs), pat => listStartsWith s pat || listIncludes cs pat

/-- String.prototype.includes. -/
def strIncludes (s pat : String) : Bool := listIncludes s.data pat.data

/-- handleTabUpdate (lines 78-84): read the persisted baseline, then gate
on the url containing the watched page url, a truthy changed title that
differs from the baseline, and complete load status, before running
handleTitleChange. -/
def handleTabUpdate (setupOk : Bool) (url : Option String)
    (changedTitle : Option String) (status : Option String)
    (st : Storage) : HandlerResult :=
  let previousTitle := getStrFromStorage st "prolificTitle" "Prolific"
  match changedTitle with
  | none => ⟨st, [], true⟩
  | some t =>
      if (match url with
          | some u => strIncludes u "https://app.prolific.com/"
          | none => false)
          && (t != "") && (t != previousTitle) && (status == some "complete") then
        handleTitleChange setupOk previousTitle t st
      else ⟨st, [], true⟩

/-- handlePlaySound (lines 100-105): read audio and volume fresh from
storage, await playAudio, then call sendNotification unconditionally. -/
def handlePlaySound (setupOk : Bool) (st : Storage) : HandlerResult :=
  match playAudio setupOk (getStrFromStorage st "audio" "alert1.mp3")
      ((getIntFromStorage st "volume" 100 : Rat) / 100) with
  | none => ⟨st, [], false⟩
  | some es => ⟨st, es ++ [sendNotificationCall], true⟩

/-- handleMessages (lines 35-49): ignore messages whose target is not
background, then dispatch on the message type. -/
def handleMessages (setupOk : Bool) (target msgType : String)
    (st : Storage) : HandlerResult :=
  if target != "background" then ⟨st, [], true⟩
  else if msgType == "play-sound" then handlePlaySound setupOk st
  else if msgType == "show-notification" then ⟨st, [sendNotificationCall], true⟩
  else if msgType == "clear-badge" then ⟨st, [Effect.setBadgeText ""], true⟩
  else ⟨st, [], true⟩

/-- setInitialValues (lines 130-139): seed audioActive, audio,
showNotification and volume. -/
def setInitialValues (st : Storage) : Storage :=
  setStorage (setStorage (setStorage (setStorage st
    "audioActive" (Val.vB true))
    "audio" (Val.vS "alert1.mp3"))
    "showNotification" (Val.vB true))
    "volume" (Val.vI 100)

/-- Eventual state of a settled creation promise. -/
inductive PromiseSt where
  | resolved
  | rejected
deriving DecidableEq

/-- Process state of the guard: the module-level variable creating and
whether the offscreen document exists. -/
structure SeqGuard where
  creating : Option PromiseSt
  surface : Bool
deriving DecidableEq

/-- setupOffscreenDocument (lines 172-195), big-step sequential semantics.
createOk is the outcome chrome.offscreen.createDocument would have if
called.  Returns the new state, the creation calls issued, and true when
the function resolves, false when it rejects.  Line 193 runs only when the
await on line 192 resolves: on rejection the variable creating is left
holding the rejected promise, and a later call that awaits that promise
rejects as well. -/
def setupOffscreenDocument (st : SeqGuard) (createOk : Bool) :
    SeqGuard × List Effect × Bool :=
  if st.surface then (st, [], true)
  else
    match st.creating with
    | some PromiseSt.resolved => (st, [], true)
    | some PromiseSt.rejected => (st, [], false)
    | none =>
        if createOk then
          ({ creating := none, surface := true },
           [Effect.createDoc "audio/audio.html"], true)
        else
          ({ creating := some PromiseSt.rejected, surface := false },
           [Effect.createDoc "audio/audio.html"], false)

/-- Program counter of one setupOffscreenDocument call in the small-step
interleaving machine.  In ctxPending snap, the getContexts call has been
issued and snap is the snapshot of whether a surface existed at call time;
the continuation from the getContexts resumption through the creating check
down to the next await runs as one atomic step, matching the absence of any
await between lines 181 and 192 of the source. -/
inductive TaskPC where
  | start
  | ctxPending (snap : Bool)
  | awaitingHandle (g : Nat)
  | creatorAwaiting (g : Nat)
  | doneOk
  | doneErr
deriving DecidableEq

/-- Global machine state: the program counters of the concurrent calls, the
module variable creating as the generation number of the promise it holds,
whether the offscreen document exists, how many createDocument calls were
ever issued (generations 0, 1, ...), and the settled generations with their
outcomes. -/
structure MState where
  tasks : List TaskPC
  creating : Option Nat
  surface : Bool
  started : Nat
  settled : List (Nat × Bool)
deriving DecidableEq

/-- Outcome of generation g once settled. -/
def lookupSettled (settled : List (Nat × Bool)) (g : Nat) : Option Bool :=
  match settled.find? (fun p => p.1 == g) with
  | some p => some p.2
  | none => none

/-- Scheduler actions: advance the call at index i by one microstep, or
settle the pending creation of generation g with outcome ok. -/
inductive MAction where
  | runTask (i : Nat)
  | resolveCreation (g : Nat) (ok : Bool)
deriving DecidableEq

/-- One microstep of a single call, given the shared state.  None means the
call is blocked (awaiting an unsettled promise) or finished. -/
def taskStep (st : MState) (pc : TaskPC) : Option (MState × TaskPC) :=
  match pc with
  | TaskPC.start => some (st, TaskPC.ctxPending st.surface)
  | TaskPC.ctxPending true => some (st, TaskPC.doneOk)
  | TaskPC.ctxPending false =>
      match st.creating with
      | some g => some (st, TaskPC.awaitingHandle g)
      | none =>
          some ({ st with creating := some st.started, started := st.started + 1 },
            TaskPC.creatorAwaiting st.started)
  | TaskPC.awaitingHandle g =>
      match lookupSettled st.settled g with
      | some true => some (st, TaskPC.doneOk)
      | some false => some (st, TaskPC.doneErr)
      | none => none
  | TaskPC.creatorAwaiting g =>
      match lookupSettled st.settled g with
      | some true => some ({ st with creating := none }, TaskPC.doneOk)
      | some false => some (st, TaskPC.doneErr)
      | none => none
  | TaskPC.doneOk => none
  | TaskPC.doneErr => none

/-- One scheduler step.  A creation settles at most once, and a successful
creation makes the surface exist. -/
def step (st : MState) : MAction → Option MState
  | MAction.runTask i =>
      match st.tasks.get? i with
      | none => none
      | some pc =>
          match taskStep st pc with
          | none => none
          | some (st2, pc2) => some { st2 with tasks := st2.tasks.set i pc2 }
  | MAction.resolveCreation g ok =>
      if g < st.started then
        match lookupSettled st.settled g with
        | some _ => none
        | none =>
            some { st with settled := (g, ok) :: st.settled,
                           surface := st.surface || ok }
      else none

/-- Run a list of scheduler actions; none when some action is not enabled. -/
def runMachine (st : MState) : List MAction → Option MState
  | [] => some st
  | a :: acts =>
      match step st a with
      | none => none
      | some st2 => runMachine st2 acts

/-- n concurrent calls to setupOffscreenDocument in a process where no
surface exists, no creation was ever started and the variable creating is
null. -/
def initState (n : Nat) : MState :=
  ⟨List.replicate n TaskPC.start, none, false, 0, []⟩

/-- Generation g is a creation call that has been issued and has not yet
settled. -/
def InFlight (st : MState) (g : Nat) : Prop :=
  g < st.started ∧ lookupSettled st.settled g = none

instance (st : MState) (g : Nat) : Decidable (InFlight st g) := by
  unfold InFlight; infer_instance

/-- The call at this program counter has passed the creating check. -/
def pastCheck : TaskPC → Bool
  | TaskPC.awaitingHandle _ => true
  | TaskPC.creatorAwaiting _ => true
  | _ => false

/-- The call at this program counter started a creation and still awaits it. -/
def isCreatorPC : TaskPC → Bool
  | TaskPC.creatorAwaiting _ => true
  | _ => false

/-- An action that settles a creation promise. -/
def isResolveAct : MAction → Bool
  | MAction.resolveCreation _ _ => true
  | _ => false

/- Helper lemmas about storage reads after writes at other keys. -/

theorem getBool_setStorage_ne (st : Storage) (k q : String) (v : Val) (d : Bool)
    (h : q ≠ k) :
    getBoolFromStorage (setStorage st k v) q d = getBoolFromStorage st q d := by
  simp [getBoolFromStorage, setStorage, h]

theorem getInt_setStorage_ne (st : Storage) (k q : String) (v : Val) (d : Int)
    (h : q ≠ k) :
    getIntFromStorage (setStorage st k v) q d = getIntFromStorage st q d := by
  simp [getIntFromStorage, setStorage, h]

theorem getStr_setStorage_ne (st : Storage) (k q : String) (v : Val) (d : String)
    (h : q ≠ k) :
    getStrFromStorage (setStorage st k v) q d = getStrFromStorage st q d := by
  simp [getStrFromStorage, setStorage, h]

/- Helper lemmas about the title regex scan. -/

theorem all_takeWhile_digits (l : List Char) :
    (l.takeWhile isDigitChar).all isDigitChar = true := by
  induction l with
  | nil => simp
  | cons a as ih =>
      rw [List.takeWhile_cons]
      by_cases h : isDigitChar a = true <;> simp [h, ih]

theorem digit_run_split (ds rest : List Char) (h : ds.all isDigitChar = true) :
    (ds ++ ')' :: rest).takeWhile isDigitChar = ds ∧
    (ds ++ ')' :: rest).dropWhile isDigitChar = ')' :: rest := by
  have hpc : isDigitChar ')' = false := by decide
  induction ds with
  | nil => simp [List.takeWhile_cons, List.dropWhile_cons, hpc]
  | cons a as ih =>
      simp only [List.all_cons, Bool.and_eq_true] at h
      have hrec := ih h.2
      simp [List.takeWhile_cons, List.dropWhile_cons, h.1, hrec.1, hrec.2]

theorem findParenNum_some_occurrence (cs : List Char) (n : Nat)
    (h : findParenNum cs = some n) :
    ∃ pre ds post : List Char,
      cs = pre ++ '(' :: (ds ++ ')' :: post) ∧ ds ≠ [] ∧
        ds.all isDigitChar = true ∧ digitsToNat ds = n := by
  induction cs with
  | nil => simp [findParenNum] at h
  | cons c rest ih =>
      rw [findParenNum] at h
      by_cases hc : c = '('
      · rw [if_pos hc] at h
        by_cases hg : (!(rest.takeWhile isDigitChar).isEmpty
            && ((rest.dropWhile isDigitChar).head? == some ')')) = true
        · rw [if_pos hg] at h
          simp only [Bool.and_eq_true, Bool.not_eq_true', beq_iff_eq,
            List.isEmpty_eq_false] at hg
          obtain ⟨hne, hhead⟩ := hg
          obtain ⟨t, hdrop⟩ : ∃ t, rest.dropWhile isDigitChar = ')' :: t := by
            cases hd : rest.dropWhile isDigitChar with
            | nil => rw [hd] at hhead; simp at hhead
            | cons a t =>
                rw [hd] at hhead
                simp at hhead
                exact ⟨t, by rw [hhead]⟩
          refine ⟨[], rest.takeWhile isDigitChar, t, ?_, ?_, ?_, ?_⟩
          · subst hc
            have hsplit := List.takeWhile_append_dropWhile isDigitChar rest
            rw [hdrop] at hsplit
            rw [List.nil_append]
            exact congrArg (List.cons '(') hsplit.symm
          · simpa using hne
          · exact all_takeWhile_digits rest
          · exact Option.some_inj.mp h
        · rw [if_neg hg] at h
          obtain ⟨pre, ds, post, he, hne, hall, hval⟩ := ih h
          exact ⟨c :: pre, ds, post, by simp [he], hne, hall, hval⟩
      · rw [if_neg hc] at h
        obtain ⟨pre, ds, post, he, hne, hall, hval⟩ := ih h
        exact ⟨c :: pre, ds, post, by simp [he], hne, hall, hval⟩

theorem occurrence_findParenNum_isSome (ds post : List Char)
    (hne : ds ≠ []) (hall : ds.all isDigitChar = true) :
    ∀ pre : List Char,
      (findParenNum (pre ++ '(' :: (ds ++ ')' :: post))).isSome = true := by
  intro pre
  induction pre with
  | nil =>
      rw [List.nil_append, findParenNum]
      rw [if_pos rfl]
      have hsplit := digit_run_split ds post hall
      rw [hsplit.1, hsplit.2]
      have : (!ds.isEmpty && ((')' :: post : List Char).head? == some ')')) = true := by
        simp [List.isEmpty_eq_false, hne]
      rw [if_pos this]
      rfl
  | cons a pre ih =>
      rw [List.cons_append, findParenNum]
      by_cases ha : a = '('
      · rw [if_pos ha]
        by_cases hg : (!((pre ++ '(' :: (ds ++ ')' :: post)).takeWhile isDigitChar).isEmpty
            && (((pre ++ '(' :: (ds ++ ')' :: post)).dropWhile isDigitChar).head? == some ')')) = true
        · rw [if_pos hg]; rfl
        · rw [if_neg hg]; exact ih
      · rw [if_neg ha]; exact ih

/-- Modelled from the spec: the title contains a parenthesized integer, an
opening parenthesis, one or more digits, and a closing parenthesis. -/
def HasParenInt (s : String) : Prop :=
  ∃ pre ds post : List Char,
    s.data = pre ++ '(' :: (ds ++ ')' :: post) ∧ ds ≠ [] ∧ ds.all isDigitChar = true

/-- Modelled from the spec: n is the value of a parenthesized integer
occurring in the title. -/
def ParenIntVal (s : String) (n : Nat) : Prop :=
  ∃ pre ds post : List Char,
    s.data = pre ++ '(' :: (ds ++ ')' :: post) ∧ ds ≠ [] ∧
      ds.all isDigitChar = true ∧ digitsToNat ds = n

/- Helper lemmas about handleTitleChange and the tab-update gate. -/

theorem handleTitleChange_persists_title (setupOk : Bool) (prev new : String)
    (st : Storage) :
    (handleTitleChange setupOk prev new st).storage "prolificTitle"
      = some (Val.vS new) := by
  unfold handleTitleChange
  cases setupOk <;>
    simp only [playAudio, updateCounterAndBadge] <;>
      split_ifs <;>
        simp [setStorage]

theorem handleTabUpdate_gate_passes (setupOk : Bool) (u t : String) (st : Storage)
    (hu : strIncludes u "https://app.prolific.com/" = true)
    (hne : t ≠ "")
    (hdiff : t ≠ getStrFromStorage st "prolificTitle" "Prolific") :
    handleTabUpdate setupOk (some u) (some t) (some "complete") st
      = handleTitleChange setupOk (getStrFromStorage st "prolificTitle" "Prolific") t st := by
  unfold handleTabUpdate
  simp [hu, bne_iff_ne, hne, hdiff]

/- Claim theorems. -/

/-- C2 counterexample: a call that starts a creation which then fails does
not clear the lock: the variable creating still holds the rejected promise,
and the next call issues no creation call and rejects, instead of finding
the lock empty and being free to attempt creation again. -/
theorem c2_lock_cleared_counterexample :
    (setupOffscreenDocument ⟨none, false⟩ false).1.creating ≠ none ∧
    (setupOffscreenDocument (setupOffscreenDocument ⟨none, false⟩ false).1 true).2.1 = [] ∧
    (setupOffscreenDocument (setupOffscreenDocument ⟨none, false⟩ false).1 true).2.2 = false := by
  decide

/-- C2 amended: when a call starts a creation, the lock is cleared after the
creation completes successfully; on failure the lock permanently retains
the rejected promise, so every subsequent call while no surface exists
awaits that promise, rejects, and starts no new creation. -/
theorem c2_lock_release_amended (st : SeqGuard)
    (hs : st.surface = false) (hc : st.creating = none) :
    (setupOffscreenDocument st true).1.creating = none ∧
    (setupOffscreenDocument st false).1.creating = some PromiseSt.rejected ∧
    (∀ createOk : Bool,
      setupOffscreenDocument (setupOffscreenDocument st false).1 createOk
        = ((setupOffscreenDocument st false).1, [], false)) := by
  refine ⟨?_, ?_, ?_⟩ <;> simp [setupOffscreenDocument, hs, hc]

/-- Witness for C2 amended at the initial guard state. -/
theorem c2_lock_release_amended_witness :
    (⟨none, false⟩ : SeqGuard).surface = false ∧
    (⟨none, false⟩ : SeqGuard).creating = none ∧
    ((setupOffscreenDocument ⟨none, false⟩ true).1.creating = none ∧
     (setupOffscreenDocument ⟨none, false⟩ false).1.creating = some PromiseSt.rejected ∧
     (∀ createOk : Bool,
       setupOffscreenDocument (setupOffscreenDocument ⟨none, false⟩ false).1 createOk
         = ((setupOffscreenDocument ⟨none, false⟩ false).1, [], false))) :=
  ⟨rfl, rfl, c2_lock_release_amended ⟨none, false⟩ rfl rfl⟩

/-- C3: the parsed numeric indicator of a title is the value of a
parenthesized integer occurring in it, and 0 when the title contains none;
the delta of a title update is the parsed count of the new title minus the
parsed count of the baseline, with the two example instances of the spec. -/
theorem c3_parse_and_delta :
    (∀ s : String, HasParenInt s → ParenIntVal s (getNumberFromTitle s)) ∧
    (∀ s : String, ¬ HasParenInt s → getNumberFromTitle s = 0) ∧
    (∀ prev new : String, titleDelta prev new
      = (getNumberFromTitle new : Int) - (getNumberFromTitle prev : Int)) ∧
    titleDelta "Page (3)" "Page (5)" = 2 ∧
    titleDelta "Page" "Page (1)" = 1 := by
  refine ⟨?_, ?_, fun _ _ => rfl, by decide, by decide⟩
  · intro s hs
    obtain ⟨pre, ds, post, he, hne, hall⟩ := hs
    have hsome := occurrence_findParenNum_isSome ds post hne hall pre
    rw [← he] at hsome
    obtain ⟨n, hn⟩ := Option.isSome_iff_exists.mp hsome
    have hval : getNumberFromTitle s = n := by
      unfold getNumberFromTitle
      rw [hn]
      rfl
    rw [hval]
    obtain ⟨pre2, ds2, post2, he2, hne2, hall2, hv2⟩ :=
      findParenNum_some_occurrence s.data n hn
    exact ⟨pre2, ds2, post2, he2, hne2, hall2, hv2⟩
  · intro s hs
    unfold getNumberFromTitle
    cases hn : findParenNum s.data with
    | none => rfl
    | some n =>
        obtain ⟨pre, ds, post, he, hne, hall, _⟩ :=
          findParenNum_some_occurrence s.data n hn
        exact absurd ⟨pre, ds, post, he, hne, hall⟩ hs

/-- Witness for C3 at the titles Page (3), with an indicator, and Page,
without one. -/
theorem c3_parse_and_delta_witness :
    ParenIntVal "Page (3)" (getNumberFromTitle "Page (3)") ∧
    getNumberFromTitle "Page" = 0 :=
  ⟨c3_parse_and_delta.1 "Page (3)"
      ⟨['P', 'a', 'g', 'e', ' '], ['3'], [], by decide, by decide, by decide⟩,
   c3_parse_and_delta.2.1 "Page" (fun h => by
      obtain ⟨pre, ds, post, he, hne, hall⟩ := h
      have hsome := occurrence_findParenNum_isSome ds post hne hall pre
      rw [← he] at hsome
      have hnone : findParenNum "Page".data = none := by decide
      rw [hnone] at hsome
      exact absurd hsome (by decide))⟩

/-- C4: for every tab-update event that passes the gate, the new title is
persisted as the baseline; when the trimmed title equals the empty-state
label or the delta is not positive, no notification, audio or badge and
counter update occurs, yet the baseline still advances to the new title. -/
theorem c4_baseline_always_persisted (setupOk : Bool) (u t : String) (st : Storage)
    (hu : strIncludes u "https://app.prolific.com/" = true)
    (hne : t ≠ "")
    (hdiff : t ≠ getStrFromStorage st "prolificTitle" "Prolific") :
    (handleTabUpdate setupOk (some u) (some t) (some "complete") st).storage "prolificTitle"
      = some (Val.vS t) ∧
    ((strTrim t = "Prolific" ∨
        titleDelta (getStrFromStorage st "prolificTitle" "Prolific") t ≤ 0) →
      (handleTabUpdate setupOk (some u) (some t) (some "complete") st).effects = [] ∧
      (handleTabUpdate setupOk (some u) (some t) (some "complete") st).completed = true ∧
      getIntFromStorage
          ((handleTabUpdate setupOk (some u) (some t) (some "complete") st).storage) "counter" 0
        = getIntFromStorage st "counter" 0) := by
  rw [handleTabUpdate_gate_passes setupOk u t st hu hne hdiff]
  constructor
  · exact handleTitleChange_persists_title setupOk _ t st
  · intro hcase
    have hgate : ((strTrim t != "Prolific") &&
        decide (getNumberFromTitle (getStrFromStorage st "prolificTitle" "Prolific")
          < getNumberFromTitle t)) = false := by
      rcases hcase with h | h
      · simp [h]
      · have hle : getNumberFromTitle t
            ≤ getNumberFromTitle (getStrFromStorage st "prolificTitle" "Prolific") := by
          unfold titleDelta at h
          omega
        simp [Nat.not_lt.mpr hle]
    unfold handleTitleChange
    simp only [hgate, Bool.false_eq_true, if_false]
    refine ⟨trivial, trivial, ?_⟩
    exact getInt_setStorage_ne _ _ _ _ _ (by decide)

/-- Witness for C4 at a gate-passing event whose new title trims to the
empty-state label. -/
theorem c4_baseline_always_persisted_witness :
    strIncludes "https://app.prolific.com/studies" "https://app.prolific.com/" = true ∧
    ("Prolific " : String) ≠ "" ∧
    ("Prolific " : String) ≠ getStrFromStorage emptyStorage "prolificTitle" "Prolific" ∧
    ((handleTabUpdate true (some "https://app.prolific.com/studies") (some "Prolific ")
        (some "complete") emptyStorage).storage "prolificTitle"
      = some (Val.vS "Prolific ") ∧
    (((strTrim "Prolific " : String) = "Prolific" ∨
        titleDelta (getStrFromStorage emptyStorage "prolificTitle" "Prolific") "Prolific " ≤ 0) →
      (handleTabUpdate true (some "https://app.prolific.com/studies") (some "Prolific ")
          (some "complete") emptyStorage).effects = [] ∧
      (handleTabUpdate true (some "https://app.prolific.com/studies") (some "Prolific ")
          (some "complete") emptyStorage).completed = true ∧
      getIntFromStorage
          ((handleTabUpdate true (some "https://app.prolific.com/studies") (some "Prolific ")
            (some "complete") emptyStorage).storage) "counter" 0
        = getIntFromStorage emptyStorage "counter" 0)) :=
  ⟨by decide, by decide, by decide,
   c4_baseline_always_persisted true "https://app.prolific.com/studies" "Prolific "
     emptyStorage (by decide) (by decide) (by decide)⟩

/-- C5 counterexample: with showNotification stored false, a qualifying
positive-delta dispatch issues no visual alert, so the alert is not issued
unconditionally. -/
theorem c5_alert_unconditional_counterexample :
    titleDelta "Page (3)" "Page (5)" = 2 ∧
    sendNotificationCall ∉ (handleTitleChange true "Page (3)" "Page (5)"
      (setStorage emptyStorage "showNotification" (Val.vB false))).effects := by
  decide

/-- C5 amended: on a qualifying positive-delta dispatch, the showNotification
and audioActive settings are read freshly from the store at dispatch time:
the visual alert, with its fixed icon, title, message and two actions, is
issued exactly when showNotification reads true, and the audio play request
with the freshly read file and volume exactly when audioActive reads true. -/
theorem c5_dispatch_fresh_settings (st : Storage) (prev new : String)
    (ht : strTrim new ≠ "Prolific")
    (hd : getNumberFromTitle prev < getNumberFromTitle new) :
    (handleTitleChange true prev new st).effects =
      (if getBoolFromStorage st "showNotification" true then [sendNotificationCall] else []) ++
      (if getBoolFromStorage st "audioActive" true then
        [Effect.sendPlayMessage (getStrFromStorage st "audio" "alert1.mp3")
          ((getIntFromStorage st "volume" 100 : Rat) / 100)] else []) ++
      updateBadge (titleDelta prev new) ∧
    (sendNotificationCall ∈ (handleTitleChange true prev new st).effects ↔
      getBoolFromStorage st "showNotification" true = true) := by
  have hb : ((strTrim new != "Prolific")
      && decide (getNumberFromTitle prev < getNumberFromTitle new)) = true := by
    simp [bne_iff_ne, ht, hd]
  have h1 : ∀ d : Bool, getBoolFromStorage (setStorage st "prolificTitle" (Val.vS new))
      "showNotification" d = getBoolFromStorage st "showNotification" d :=
    fun d => getBool_setStorage_ne _ _ _ _ _ (by decide)
  have h2 : ∀ d : Bool, getBoolFromStorage (setStorage st "prolificTitle" (Val.vS new))
      "audioActive" d = getBoolFromStorage st "audioActive" d :=
    fun d => getBool_setStorage_ne _ _ _ _ _ (by decide)
  have h3 : ∀ d : String, getStrFromStorage (setStorage st "prolificTitle" (Val.vS new))
      "audio" d = getStrFromStorage st "audio" d :=
    fun d => getStr_setStorage_ne _ _ _ _ _ (by decide)
  have h4 : ∀ d : Int, getIntFromStorage (setStorage st "prolificTitle" (Val.vS new))
      "volume" d = getIntFromStorage st "volume" d :=
    fun d => getInt_setStorage_ne _ _ _ _ _ (by decide)
  constructor
  · unfold handleTitleChange
    simp only [hb, if_true, h1, h2, h3, h4, playAudio, updateCounterAndBadge]
    by_cases hn : getBoolFromStorage st "showNotification" true <;>
      by_cases haa : getBoolFromStorage st "audioActive" true <;>
        simp [hn, haa, updateBadge]
  · unfold handleTitleChange
    simp only [hb, if_true, h1, h2, h3, h4, playAudio, updateCounterAndBadge]
    by_cases hn : getBoolFromStorage st "showNotification" true <;>
      by_cases haa : getBoolFromStorage st "audioActive" true <;>
        simp [hn, haa, updateBadge, sendNotificationCall]

/-- Witness for C5 amended at a dispatch from baseline Page (3) to Page (5)
over the freshly seeded store. -/
theorem c5_dispatch_fresh_settings_witness :
    strTrim "Page (5)" ≠ "Prolific" ∧
    getNumberFromTitle "Page (3)" < getNumberFromTitle "Page (5)" ∧
    ((handleTitleChange true "Page (3)" "Page (5)" (setInitialValues emptyStorage)).effects =
      (if getBoolFromStorage (setInitialValues emptyStorage) "showNotification" true
        then [sendNotificationCall] else []) ++
      (if getBoolFromStorage (setInitialValues emptyStorage) "audioActive" true then
        [Effect.sendPlayMessage
          (getStrFromStorage (setInitialValues emptyStorage) "audio" "alert1.mp3")
          ((getIntFromStorage (setInitialValues emptyStorage) "volume" 100 : Rat) / 100)]
        else []) ++
      updateBadge (titleDelta "Page (3)" "Page (5)") ∧
    (sendNotificationCall ∈
        (handleTitleChange true "Page (3)" "Page (5)" (setInitialValues emptyStorage)).effects ↔
      getBoolFromStorage (setInitialValues emptyStorage) "showNotification" true = true)) :=
  ⟨by decide, by decide,
   c5_dispatch_fresh_settings (setInitialValues emptyStorage) "Page (3)" "Page (5)"
     (by decide) (by decide)⟩

/-- C6: updateCounterAndBadge adds the delta to the persisted counter, sets
the badge text to the decimal string of the delta itself rather than the
cumulative total, and schedules an independent clear 20000 ms after the
call that cancels no previously pending clear. -/
theorem c6_counter_badge_timer (st : Storage) (count : Int) (bs : BadgeState) (t : Nat) :
    getIntFromStorage (updateCounterAndBadge st count).1 "counter" 0
      = getIntFromStorage st "counter" 0 + count ∧
    (applyBadgeEffects t bs (updateCounterAndBadge st count).2).text = toString count ∧
    (applyBadgeEffects t bs (updateCounterAndBadge st count).2).timers
      = bs.timers ++ [t + 20000] := by
  refine ⟨?_, ?_, ?_⟩ <;>
    simp [updateCounterAndBadge, updateBadge, applyBadgeEffects, applyBadgeEffect,
      getIntFromStorage, setStorage]

/-- C7: when introspection already reports an existing surface,
setupOffscreenDocument returns success immediately, issues no creation
call, and leaves the lock untouched. -/
theorem c7_existing_surface_noop (st : SeqGuard) (createOk : Bool)
    (h : st.surface = true) :
    setupOffscreenDocument st createOk = (st, [], true) := by
  simp [setupOffscreenDocument, h]

/-- Witness for C7 with a surface present and the lock empty. -/
theorem c7_existing_surface_noop_witness :
    (⟨none, true⟩ : SeqGuard).surface = true ∧
    setupOffscreenDocument ⟨none, true⟩ false = (⟨none, true⟩, [], true) :=
  ⟨rfl, c7_existing_surface_noop ⟨none, true⟩ false rfl⟩

/-- C8: after install-time seeding into a store where no explicit value was
ever set, each persisted key reads back exactly its specified default:
audioActive true, showNotification true, audio alert1.mp3, volume 100,
openProlific read with the false fallback, counter read as 0, and
prolificTitle read as the empty-state label. -/
theorem c8_seed_then_read_defaults :
    getBoolFromStorage (setInitialValues emptyStorage) "audioActive" true = true ∧
    getBoolFromStorage (setInitialValues emptyStorage) "showNotification" true = true ∧
    getStrFromStorage (setInitialValues emptyStorage) "audio" "alert1.mp3" = "alert1.mp3" ∧
    getIntFromStorage (setInitialValues emptyStorage) "volume" 100 = 100 ∧
    getBoolFromStorage (setInitialValues emptyStorage) "openProlific" false = false ∧
    getIntFromStorage (setInitialValues emptyStorage) "counter" 0 = 0 ∧
    getStrFromStorage (setInitialValues emptyStorage) "prolificTitle" "Prolific" = "Prolific" := by
  decide

/-- C9: a message with target background and type play-sound reads the audio
settings fresh, requests playback, and then issues the visual alert
unconditionally: the alert is emitted for every store, in particular
whatever boolean showNotification holds. -/
theorem c9_play_sound_always_notifies (st : Storage) :
    (handleMessages true "background" "play-sound" st).effects
      = [Effect.sendPlayMessage (getStrFromStorage st "audio" "alert1.mp3")
          ((getIntFromStorage st "volume" 100 : Rat) / 100), sendNotificationCall] ∧
    sendNotificationCall ∈ (handleMessages true "background" "play-sound" st).effects ∧
    (∀ b : Bool,
      sendNotificationCall ∈ (handleMessages true "background" "play-sound"
        (setStorage st "showNotification" (Val.vB b))).effects) := by
  refine ⟨?_, ?_, ?_⟩ <;>
    simp [handleMessages, handlePlaySound, playAudio]

/-- C10: when the awaited audio playback step fails on a qualifying
positive-delta dispatch with audio enabled, the handler aborts: the counter
and badge update never happens, even though the new baseline was already
persisted and the visual alert, when showNotification reads true, was
already issued. -/
theorem c10_counter_skipped_on_audio_failure (prev new : String) (st : Storage)
    (ht : strTrim new ≠ "Prolific")
    (hd : getNumberFromTitle prev < getNumberFromTitle new)
    (ha : getBoolFromStorage st "audioActive" true = true) :
    (handleTitleChange false prev new st).completed = false ∧
    (handleTitleChange false prev new st).storage "prolificTitle" = some (Val.vS new) ∧
    getIntFromStorage (handleTitleChange false prev new st).storage "counter" 0
      = getIntFromStorage st "counter" 0 ∧
    (∀ s, Effect.setBadgeText s ∉ (handleTitleChange false prev new st).effects) ∧
    (handleTitleChange false prev new st).effects
      = (if getBoolFromStorage st "showNotification" true then [sendNotificationCall] else []) := by
  have hb : ((strTrim new != "Prolific")
      && decide (getNumberFromTitle prev < getNumberFromTitle new)) = true := by
    simp [bne_iff_ne, ht, hd]
  have h1 : ∀ d : Bool, getBoolFromStorage (setStorage st "prolificTitle" (Val.vS new))
      "showNotification" d = getBoolFromStorage st "showNotification" d :=
    fun d => getBool_setStorage_ne _ _ _ _ _ (by decide)
  have h2 : ∀ d : Bool, getBoolFromStorage (setStorage st "prolificTitle" (Val.vS new))
      "audioActive" d = getBoolFromStorage st "audioActive" d :=
    fun d => getBool_setStorage_ne _ _ _ _ _ (by decide)
  have h5 : ∀ d : Int, getIntFromStorage (setStorage st "prolificTitle" (Val.vS new))
      "counter" d = getIntFromStorage st "counter" d :=
    fun d => getInt_setStorage_ne _ _ _ _ _ (by decide)
  unfold handleTitleChange
  simp only [hb, if_true, h1, h2, ha, playAudio, if_false, Bool.false_eq_true]
  refine ⟨?_, ?_, ?_, ?_, ?_⟩
  · simp
  · simp [setStorage]
  · simpa using h5 0
  · intro s
    by_cases hn : getBoolFromStorage st "showNotification" true <;>
      simp [hn, sendNotificationCall]
  · simp

/-- Witness for C10 at a failing playback during the dispatch from Page (3)
to Page (5) over the freshly seeded store. -/
theorem c10_counter_skipped_on_audio_failure_witness :
    strTrim "Page (5)" ≠ "Prolific" ∧
    getNumberFromTitle "Page (3)" < getNumberFromTitle "Page (5)" ∧
    getBoolFromStorage (setInitialValues emptyStorage) "audioActive" true = true ∧
    ((handleTitleChange false "Page (3)" "Page (5)" (setInitialValues emptyStorage)).completed = false ∧
     (handleTitleChange false "Page (3)" "Page (5)" (setInitialValues emptyStorage)).storage
        "prolificTitle" = some (Val.vS "Page (5)") ∧
     getIntFromStorage (handleTitleChange false "Page (3)" "Page (5)"
        (setInitialValues emptyStorage)).storage "counter" 0
       = getIntFromStorage (setInitialValues emptyStorage) "counter" 0 ∧
     (∀ s, Effect.setBadgeText s ∉
        (handleTitleChange false "Page (3)" "Page (5)" (setInitialValues emptyStorage)).effects) ∧
     (handleTitleChange false "Page (3)" "Page (5)" (setInitialValues emptyStorage)).effects
       = (if getBoolFromStorage (setInitialValues emptyStorage) "showNotification" true
          then [sendNotificationCall] else [])) :=
  ⟨by decide, by decide, by decide,
   c10_counter_skipped_on_audio_failure "Page (3)" "Page (5)" (setInitialValues emptyStorage)
     (by decide) (by decide) (by decide)⟩
def creatorCount (l : List TaskPC) : Nat := (l.filter isCreatorPC).length

theorem creatorCount_set (l : List TaskPC) (i : Nat) (pc pc' : TaskPC)
    (h : l.get? i = some pc) :
    creatorCount (l.set i pc') + (if isCreatorPC pc then 1 else 0)
      = creatorCount l + (if isCreatorPC pc' then 1 else 0) := by
  induction l generalizing i with
  | nil => simp at h
  | cons a as ih =>
      cases i with
      | zero =>
          simp only [List.get?] at h
          injection h with h
          rw [← h]
          simp only [List.set, creatorCount, List.filter_cons]
          cases h1 : isCreatorPC a <;> cases h2 : isCreatorPC pc' <;>
            simp [h1, h2]
      | succ j =>
          simp only [List.get?] at h
          have hih := ih j h
          unfold creatorCount at hih ⊢
          simp only [List.set, List.filter_cons]
          cases ha : isCreatorPC a <;> simp [ha] <;> omega

theorem creatorCount_zero (l : List TaskPC) (h : creatorCount l = 0) :
    ∀ pc ∈ l, isCreatorPC pc = false := by
  intro pc hmem
  by_contra hc
  have hmf : pc ∈ l.filter isCreatorPC :=
    List.mem_filter.mpr ⟨hmem, by simpa using hc⟩
  have : 0 < (l.filter isCreatorPC).length :=
    List.length_pos.mpr (List.ne_nil_of_mem hmf)
  unfold creatorCount at h
  omega

theorem creatorCount_eq_zero_of_none (l : List TaskPC)
    (h : ∀ pc ∈ l, isCreatorPC pc = false) : creatorCount l = 0 := by
  unfold creatorCount
  rw [List.filter_eq_nil_iff.mpr (by intro a ha; simp [h a ha])]
  rfl

theorem lookupSettled_nil (g : Nat) : lookupSettled [] g = none := rfl

theorem lookupSettled_cons (g g' : Nat) (ok : Bool) (s : List (Nat × Bool)) :
    lookupSettled ((g, ok) :: s) g' = if g = g' then some ok else lookupSettled s g' := by
  unfold lookupSettled
  by_cases h : g = g'
  · simp [List.find?_cons, h]
  · simp only [List.find?_cons]
    have : ((g, ok).1 == g') = false := by simpa using h
    rw [this]
    simp [h]

/-- Invariant of the guard machine: every issued and unsettled creation is
the one held in the variable creating, every task that started a creation
and still awaits it sees its own generation in creating, and at most one
task is in that position. -/
def GInv (st : MState) : Prop :=
  (∀ g, g < st.started → lookupSettled st.settled g = none → st.creating = some g) ∧
  (∀ g, TaskPC.creatorAwaiting g ∈ st.tasks → st.creating = some g) ∧
  creatorCount st.tasks ≤ 1

theorem ginv_init (n : Nat) : GInv (initState n) := by
  refine ⟨fun g hg _ => ?_, fun g hmem => ?_, ?_⟩
  · simp [initState] at hg
  · have := List.eq_of_mem_replicate hmem
    simp at this
  · have : creatorCount (List.replicate n TaskPC.start) = 0 := by
      apply creatorCount_eq_zero_of_none
      intro pc hpc
      rw [List.eq_of_mem_replicate hpc]
      rfl
    simp [initState, this]

theorem ginv_step (st st' : MState) (a : MAction) (h : GInv st)
    (hs : step st a = some st') : GInv st' := by
  obtain ⟨h1, h2, h3⟩ := h
  cases a with
  | resolveCreation g ok =>
      simp only [step] at hs
      by_cases hg : g < st.started
      · rw [if_pos hg] at hs
        cases hl : lookupSettled st.settled g with
        | some b => rw [hl] at hs; exact absurd hs (by simp)
        | none =>
            rw [hl] at hs
            injection hs with hs
            subst hs
            refine ⟨?_, h2, h3⟩
            intro g' hg' hset
            dsimp only at hset hg' ⊢
            rw [lookupSettled_cons] at hset
            by_cases he : g = g'
            · rw [if_pos he] at hset; exact absurd hset (by simp)
            · rw [if_neg he] at hset
              exact h1 g' hg' hset
      · rw [if_neg hg] at hs; exact absurd hs (by simp)
  | runTask i =>
      simp only [step] at hs
      cases hget : st.tasks.get? i with
      | none => rw [hget] at hs; exact absurd hs (by simp)
      | some pc =>
          rw [hget] at hs
          have hcount := creatorCount_set st.tasks i pc
          cases pc with
          | start =>
              simp only [taskStep] at hs
              injection hs with hs
              subst hs
              refine ⟨h1, ?_, ?_⟩
              · intro g hmem
                dsimp only at hmem ⊢
                rcases List.mem_or_eq_of_mem_set hmem with hm | he
                · exact h2 g hm
                · simp at he
              · dsimp only
                have := hcount (TaskPC.ctxPending st.surface) hget
                simp [isCreatorPC] at this
                omega
          | ctxPending snap =>
              cases snap with
              | true =>
                  simp only [taskStep] at hs
                  injection hs with hs
                  subst hs
                  refine ⟨h1, ?_, ?_⟩
                  · intro g hmem
                    dsimp only at hmem ⊢
                    rcases List.mem_or_eq_of_mem_set hmem with hm | he
                    · exact h2 g hm
                    · simp at he
                  · dsimp only
                    have := hcount TaskPC.doneOk hget
                    simp [isCreatorPC] at this
                    omega
              | false =>
                  simp only [taskStep] at hs
                  cases hcr : st.creating with
                  | some g =>
                      rw [hcr] at hs
                      simp only at hs
                      injection hs with hs
                      subst hs
                      refine ⟨?_, ?_, ?_⟩
                      · intro g' hg' hset
                        dsimp only at hg' hset ⊢
                        exact h1 g' hg' hset
                      · intro g' hmem
                        dsimp only at hmem ⊢
                        rcases List.mem_or_eq_of_mem_set hmem with hm | he
                        · exact h2 g' hm
                        · simp at he
                      · dsimp only
                        have := hcount (TaskPC.awaitingHandle g) hget
                        simp [isCreatorPC] at this
                        omega
                  | none =>
                      rw [hcr] at hs
                      simp only at hs
                      injection hs with hs
                      subst hs
                      have hnc : ∀ pc2 ∈ st.tasks, isCreatorPC pc2 = false := by
                        intro pc2 hmem
                        cases hpc2 : pc2 <;> try rfl
                        case creatorAwaiting g' =>
                          rw [hpc2] at hmem
                          have := h2 g' hmem
                          rw [hcr] at this
                          exact absurd this (by simp)
                      refine ⟨?_, ?_, ?_⟩
                      · intro g' hg' hset
                        dsimp only at hg' hset ⊢
                        rcases Nat.lt_succ_iff_lt_or_eq.mp hg' with hlt | heq
                        · have := h1 g' hlt hset
                          rw [hcr] at this
                          exact absurd this (by simp)
                        · rw [heq]
                      · intro g' hmem
                        dsimp only at hmem ⊢
                        rcases List.mem_or_eq_of_mem_set hmem with hm | he
                        · have := h2 g' hm
                          rw [hcr] at this
                          exact absurd this (by simp)
                        · injection he with he
                          rw [he]
                      · dsimp only
                        have := hcount (TaskPC.creatorAwaiting st.started) hget
                        have hzero := creatorCount_eq_zero_of_none st.tasks hnc
                        simp [isCreatorPC] at this
                        omega
          | awaitingHandle g =>
              simp only [taskStep] at hs
              cases hl : lookupSettled st.settled g with
              | none => rw [hl] at hs; exact absurd hs (by simp)
              | some b =>
                  rw [hl] at hs
                  cases b with
                  | true =>
                      simp only at hs
                      injection hs with hs
                      subst hs
                      refine ⟨h1, ?_, ?_⟩
                      · intro g' hmem
                        dsimp only at hmem ⊢
                        rcases List.mem_or_eq_of_mem_set hmem with hm | he
                        · exact h2 g' hm
                        · simp at he
                      · dsimp only
                        have := hcount TaskPC.doneOk hget
                        simp [isCreatorPC] at this
                        omega
                  | false =>
                      simp only at hs
                      injection hs with hs
                      subst hs
                      refine ⟨h1, ?_, ?_⟩
                      · intro g' hmem
                        dsimp only at hmem ⊢
                        rcases List.mem_or_eq_of_mem_set hmem with hm | he
                        · exact h2 g' hm
                        · simp at he
                      · dsimp only
                        have := hcount TaskPC.doneErr hget
                        simp [isCreatorPC] at this
                        omega
          | creatorAwaiting g =>
              simp only [taskStep] at hs
              cases hl : lookupSettled st.settled g with
              | none => rw [hl] at hs; exact absurd hs (by simp)
              | some b =>
                  rw [hl] at hs
                  have hmemc : TaskPC.creatorAwaiting g ∈ st.tasks := List.get?_mem hget
                  have hcrg : st.creating = some g := h2 g hmemc
                  cases b with
                  | true =>
                      simp only at hs
                      injection hs with hs
                      subst hs
                      have hz : creatorCount (st.tasks.set i TaskPC.doneOk) = 0 := by
                        have := hcount TaskPC.doneOk hget
                        simp [isCreatorPC] at this
                        omega
                      refine ⟨?_, ?_, ?_⟩
                      · intro g' hg' hset
                        dsimp only at hg' hset ⊢
                        have := h1 g' hg' hset
                        rw [hcrg] at this
                        injection this with this
                        rw [this] at hl
                        rw [hset] at hl
                        exact absurd hl (by simp)
                      · intro g' hmem
                        dsimp only at hmem ⊢
                        have := creatorCount_zero _ hz (TaskPC.creatorAwaiting g') hmem
                        exact absurd this (by simp [isCreatorPC])
                      · dsimp only
                        omega
                  | false =>
                      simp only at hs
                      injection hs with hs
                      subst hs
                      refine ⟨h1, ?_, ?_⟩
                      · intro g' hmem
                        dsimp only at hmem ⊢
                        rcases List.mem_or_eq_of_mem_set hmem with hm | he
                        · exact h2 g' hm
                        · simp at he
                      · dsimp only
                        have := hcount TaskPC.doneErr hget
                        simp [isCreatorPC] at this
                        omega
          | doneOk =>
              simp only [taskStep] at hs
              exact absurd hs (by simp)
          | doneErr =>
              simp only [taskStep] at hs
              exact absurd hs (by simp)

theorem ginv_runMachine (acts : List MAction) (st st' : MState) (h : GInv st)
    (hr : runMachine st acts = some st') : GInv st' := by
  induction acts generalizing st with
  | nil =>
      unfold runMachine at hr
      injection hr with hr
      rw [← hr]
      exact h
  | cons a acts ih =>
      unfold runMachine at hr
      cases hstep : step st a with
      | none => rw [hstep] at hr; exact absurd hr (by simp)
      | some st2 =>
          rw [hstep] at hr
          exact ih st2 (ginv_step st st2 a h hstep) hr

/-- Invariant of a run in which no creation has settled: either no creation
was started, the lock is empty and every call is before its check, or
exactly one creation was started, the lock holds its handle, and every call
is before its check or awaiting that handle. -/
def NRInv (st : MState) : Prop :=
  st.surface = false ∧ st.settled = [] ∧
  ((st.started = 0 ∧ st.creating = none ∧
      ∀ pc ∈ st.tasks, pc = TaskPC.start ∨ pc = TaskPC.ctxPending false) ∨
   (st.started = 1 ∧ st.creating = some 0 ∧
      ∀ pc ∈ st.tasks, pc = TaskPC.start ∨ pc = TaskPC.ctxPending false ∨
        pc = TaskPC.awaitingHandle 0 ∨ pc = TaskPC.creatorAwaiting 0))

theorem nr_init (n : Nat) : NRInv (initState n) := by
  refine ⟨rfl, rfl, Or.inl ⟨rfl, rfl, ?_⟩⟩
  intro pc hmem
  exact Or.inl (List.eq_of_mem_replicate hmem)

theorem nr_step (st st' : MState) (a : MAction) (h : NRInv st)
    (ha : isResolveAct a = false) (hs : step st a = some st') : NRInv st' := by
  obtain ⟨hsurf, hsettled, hcase⟩ := h
  cases a with
  | resolveCreation g ok => simp [isResolveAct] at ha
  | runTask i =>
      simp only [step] at hs
      cases hget : st.tasks.get? i with
      | none => rw [hget] at hs; exact absurd hs (by simp)
      | some pc =>
          rw [hget] at hs
          have hmempc : pc ∈ st.tasks := List.get?_mem hget
          rcases hcase with ⟨hst, hcr, htasks⟩ | ⟨hst, hcr, htasks⟩
          · rcases htasks pc hmempc with hpc | hpc
            · subst hpc
              simp only [taskStep] at hs
              injection hs with hs
              subst hs
              refine ⟨hsurf, hsettled, Or.inl ⟨hst, hcr, ?_⟩⟩
              intro pc2 hmem2
              dsimp only at hmem2
              rcases List.mem_or_eq_of_mem_set hmem2 with hm | he
              · exact htasks pc2 hm
              · rw [he, hsurf]
                exact Or.inr rfl
            · subst hpc
              simp only [taskStep] at hs
              rw [hcr] at hs
              simp only at hs
              injection hs with hs
              subst hs
              refine ⟨hsurf, hsettled, Or.inr ⟨by simp [hst], by simp [hst], ?_⟩⟩
              intro pc2 hmem2
              dsimp only at hmem2
              rcases List.mem_or_eq_of_mem_set hmem2 with hm | he
              · rcases htasks pc2 hm with h' | h'
                · exact Or.inl h'
                · exact Or.inr (Or.inl h')
              · rw [he, hst]
                exact Or.inr (Or.inr (Or.inr rfl))
          · rcases htasks pc hmempc with hpc | hpc | hpc | hpc
            · subst hpc
              simp only [taskStep] at hs
              injection hs with hs
              subst hs
              refine ⟨hsurf, hsettled, Or.inr ⟨hst, hcr, ?_⟩⟩
              intro pc2 hmem2
              dsimp only at hmem2
              rcases List.mem_or_eq_of_mem_set hmem2 with hm | he
              · exact htasks pc2 hm
              · rw [he, hsurf]
                exact Or.inr (Or.inl rfl)
            · subst hpc
              simp only [taskStep] at hs
              rw [hcr] at hs
              simp only at hs
              injection hs with hs
              subst hs
              refine ⟨hsurf, hsettled, Or.inr ⟨hst, hcr, ?_⟩⟩
              intro pc2 hmem2
              dsimp only at hmem2
              rcases List.mem_or_eq_of_mem_set hmem2 with hm | he
              · exact htasks pc2 hm
              · rw [he]
                exact Or.inr (Or.inr (Or.inl rfl))
            · subst hpc
              simp only [taskStep] at hs
              rw [hsettled] at hs
              simp only [lookupSettled_nil] at hs
              exact absurd hs (by simp)
            · subst hpc
              simp only [taskStep] at hs
              rw [hsettled] at hs
              simp only [lookupSettled_nil] at hs
              exact absurd hs (by simp)

theorem nr_runMachine (acts : List MAction) (st st' : MState) (h : NRInv st)
    (ha : ∀ a ∈ acts, isResolveAct a = false)
    (hr : runMachine st acts = some st') : NRInv st' := by
  induction acts generalizing st with
  | nil =>
      unfold runMachine at hr
      injection hr with hr
      rw [← hr]
      exact h
  | cons a acts ih =>
      unfold runMachine at hr
      cases hstep : step st a with
      | none => rw [hstep] at hr; exact absurd hr (by simp)
      | some st2 =>
          rw [hstep] at hr
          exact ih st2 (nr_step st st2 a h (ha a (by simp)) hstep)
            (fun a2 hm => ha a2 (by simp [hm])) hr

/-- C1: in every reachable state of the guard machine at most one creation
is in flight, and along every schedule of n concurrent setupOffscreenDocument
calls in which the first creation has not yet completed, at most one
creation call was started, exactly one once any caller has passed the
creating check, and every caller that found the lock non-empty awaits
exactly the in-flight handle held in the lock. -/
theorem c1_guard_single_creation (n : Nat) (acts : List MAction) (st : MState)
    (hr : runMachine (initState n) acts = some st) :
    (∀ g1 g2, InFlight st g1 → InFlight st g2 → g1 = g2) ∧
    ((∀ a ∈ acts, isResolveAct a = false) →
      st.started ≤ 1 ∧
      (∀ pc ∈ st.tasks, pastCheck pc = true → st.started = 1) ∧
      (∀ g, TaskPC.awaitingHandle g ∈ st.tasks →
        st.creating = some g ∧ InFlight st g)) := by
  constructor
  · intro g1 g2 hf1 hf2
    obtain ⟨h1, _, _⟩ := ginv_runMachine acts (initState n) st (ginv_init n) hr
    have e1 := h1 g1 hf1.1 hf1.2
    have e2 := h1 g2 hf2.1 hf2.2
    rw [e1] at e2
    injection e2
  · intro hnores
    obtain ⟨hsurf, hsettled, hcase⟩ :=
      nr_runMachine acts (initState n) st (nr_init n) hnores hr
    rcases hcase with ⟨hst, hcr, htasks⟩ | ⟨hst, hcr, htasks⟩
    · refine ⟨by omega, ?_, ?_⟩
      · intro pc hmem hpast
        rcases htasks pc hmem with h' | h' <;> rw [h'] at hpast <;>
          simp [pastCheck] at hpast
      · intro g hmem
        rcases htasks _ hmem with h' | h' <;> simp at h'
    · refine ⟨by omega, fun _ _ _ => hst, ?_⟩
      intro g hmem
      rcases htasks _ hmem with h' | h' | h' | h'
      · simp at h'
      · simp at h'
      · injection h' with h'
        subst h'
        exact ⟨hcr, by rw [hst]; omega, by rw [hsettled]; rfl⟩
      · simp at h'

/-- Witness for C1: two concurrent callers scheduled past their checks with
the creation still pending. -/
theorem c1_guard_single_creation_witness :
    runMachine (initState 2) [MAction.runTask 0, MAction.runTask 1,
        MAction.runTask 0, MAction.runTask 1]
      = some ⟨[TaskPC.creatorAwaiting 0, TaskPC.awaitingHandle 0],
          some 0, false, 1, []⟩ ∧
    (∀ g1 g2,
      InFlight ⟨[TaskPC.creatorAwaiting 0, TaskPC.awaitingHandle 0],
          some 0, false, 1, []⟩ g1 →
      InFlight ⟨[TaskPC.creatorAwaiting 0, TaskPC.awaitingHandle 0],
          some 0, false, 1, []⟩ g2 → g1 = g2) ∧
    ((⟨[TaskPC.creatorAwaiting 0, TaskPC.awaitingHandle 0],
        some 0, false, 1, []⟩ : MState).started ≤ 1 ∧
      (∀ pc ∈ (⟨[TaskPC.creatorAwaiting 0, TaskPC.awaitingHandle 0],
          some 0, false, 1, []⟩ : MState).tasks, pastCheck pc = true →
        (⟨[TaskPC.creatorAwaiting 0, TaskPC.awaitingHandle 0],
            some 0, false, 1, []⟩ : MState).started = 1) ∧
      (∀ g, TaskPC.awaitingHandle g ∈
          (⟨[TaskPC.creatorAwaiting 0, TaskPC.awaitingHandle 0],
              some 0, false, 1, []⟩ : MState).tasks →
        (⟨[TaskPC.creatorAwaiting 0, TaskPC.awaitingHandle 0],
            some 0, false, 1, []⟩ : MState).creating = some g ∧
          InFlight ⟨[TaskPC.creatorAwaiting 0, TaskPC.awaitingHandle 0],
              some 0, false, 1, []⟩ g)) :=
  ⟨by decide,
   (c1_guard_single_creation 2 [MAction.runTask 0, MAction.runTask 1, MAction.runTask 0,
      MAction.runTask 1]
      ⟨[TaskPC.creatorAwaiting 0, TaskPC.awaitingHandle 0], some 0, false, 1, []⟩
      (by decide)).1,
   (c1_guard_single_creation 2 [MAction.runTask 0, MAction.runTask 1, MAction.runTask 0,
      MAction.runTask 1]
      ⟨[TaskPC.creatorAwaiting 0, TaskPC.awaitingHandle 0], some 0, false, 1, []⟩
      (by decide)).2 (by decide)⟩
